import Mathlib

/-!
Shallow embedding of the go-lang-detector library (package langdet,
src/langdet/detection.go) together with proofs settling the
specification's claims about it.

Modelling conventions:

* A Go map[string]int is modelled as an association list
  List (String × Int).  Go map iteration order is arbitrary; every
  modelled computation that ranges over a map is a sum (order
  independent) or is stated up to permutation.
* Go int is modelled as Int (exact integers; no overflow occurs in the
  quantities involved for realistic profile sizes).
* Go float32/float64 arithmetic is modelled exactly over the rationals.
  The places this matters are the confidence computation
  1 - float64(dist)/float64(maxPossibleDistance) in closestFromTable and
  the float32 MinimumConfidence in asPercent; the rounding error of
  these float operations cannot move the compared integer quantities
  across the boundaries used in the claims below.  A Go conversion
  float64 -> int truncates toward zero.  When maxPossibleDistance = 0
  the code divides 0.0 by 0.0, which yields NaN, and int(NaN * 100) is
  implementation dependent in Go; we model the amd64 behaviour
  (cvttsd2si), which yields -2^63.
* The possibly-nil Go pointer Detector.Languages : *[]Language is
  modelled as Option (List Language); dereferencing a nil pointer is a
  runtime panic, modelled by the detector methods returning none.
* Functions of the langdet package that are referenced by
  detection.go but whose defining file is not part of the sources at
  hand (CreateOccurenceMap, CreateRankLookupMap, Analyze, and the
  ResByConf sort order) are modelled from the spec; each such
  definition carries a doc comment saying so.
-/

namespace Langdet

/-- Go: type Language struct { Name string; Profile map[string]int }.
The profile maps an n-gram token to its 1-based frequency rank. -/
structure Language where
  Name : String
  Profile : List (String × Int)
deriving DecidableEq

/-- Go: type DetectionResult struct { Name string; Confidence int }. -/
structure DetectionResult where
  Name : String
  Confidence : Int
deriving DecidableEq

instance : Inhabited DetectionResult := ⟨⟨"", 0⟩⟩

/-- Go: type Detector struct { Languages *[]Language; MinimumConfidence float32 }.
The nil-able slice pointer is an Option; the float32 threshold is a rational. -/
structure Detector where
  Languages : Option (List Language)
  MinimumConfidence : ℚ
deriving DecidableEq

/-- Go: const nDepth = 4 (depth of n-gram tokens created for detection). -/
def nDepth : Nat := 4

/-- Go: var DefaultMinimumConfidence float32 = 0.7. -/
def DefaultMinimumConfidence : ℚ := 7 / 10

/-- Go conversion float64 -> int of NaN: implementation dependent; on amd64
(cvttsd2si) it yields the indefinite integer value -2^63.  This is the
confidence value the unguarded code produces when maxPossibleDistance = 0. -/
def goNaNInt : Int := -(2 ^ 63)

/-- Go conversion of a nonnegative-denominator rational float value to int:
truncation toward zero. -/
def goTruncToInt (q : ℚ) : Int := if q < 0 then ⌈q⌉ else ⌊q⌋

/-- Go: func asPercent(input float32) int { return int(input * 100) }. -/
def asPercent (input : ℚ) : Int := goTruncToInt (input * 100)

/-- Go (detection.go, GetDistance): the per-token contribution for key with
sample rank rankA against mapB, with cap maxDist. -/
def distContribution (mapB : List (String × Int)) (maxDist rankA : Int)
    (key : String) : Int :=
  match mapB.lookup key with
  | some rankB =>
    let diff := rankB - rankA
    if diff > maxDist ∨ diff < (-1) * maxDist then maxDist
    else if diff < 0 then diff * (-1)
    else diff
  | none => maxDist

/-- Go: func GetDistance(mapA, mapB map[string]int, maxDist int) int.
Sums, over the entries of mapA whose rank is not above 300, the capped rank
displacement against mapB (tokens absent from mapB contribute maxDist).
The Go loop accumulates in arbitrary map order; addition commutes, so the
list fold is a faithful model. -/
def GetDistance : List (String × Int) → List (String × Int) → Int → Int
  | [], _, _ => 0
  | (key, rankA) :: rest, mapB, maxDist =>
    (if rankA > 300 then 0 else distContribution mapB maxDist rankA key) +
      GetDistance rest mapB maxDist

/-- Go (closestFromTable body): confidence := int(relativeDistance * 100) where
relativeDistance := 1 - float64(dist)/float64(maxPossibleDistance).  When
maxPossibleDistance = 0 the float division yields NaN (dist is 0 there) and
the int conversion is implementation dependent, modelled as goNaNInt. -/
def confidenceValue (dist maxPossibleDistance : Int) : Int :=
  if maxPossibleDistance = 0 then goNaNInt
  else goTruncToInt ((1 - (dist : ℚ) / (maxPossibleDistance : ℚ)) * 100)

/-- Modelled from the spec: the ResByConf sort order used by
sort.Sort(ResByConf(res)) lives in a langdet source file not among the
sources at hand; the spec says results are sorted by confidence
descending (ties deterministic).  Two results are ordered when the first
has at least the confidence of the second. -/
def resByConfGE (a b : DetectionResult) : Prop := b.Confidence ≤ a.Confidence

instance : DecidableRel resByConfGE := fun a b =>
  inferInstanceAs (Decidable (b.Confidence ≤ a.Confidence))

instance : IsTotal DetectionResult resByConfGE :=
  ⟨fun a b => le_total b.Confidence a.Confidence⟩

instance : IsTrans DetectionResult resByConfGE :=
  ⟨fun _ _ _ h1 h2 => le_trans h2 h1⟩

/-- Modelled from the spec: sort.Sort(ResByConf(res)) sorts by confidence
descending; the concrete comparison sort is immaterial to the claims. -/
def sortResByConf (res : List DetectionResult) : List DetectionResult :=
  List.insertionSort resByConfGE res

/-- Go (closestFromTable loop body): the DetectionResult for one language:
lSize := len(language.Profile); maxPossibleDistance := lSize * inputSize;
dist := GetDistance(lookupMap, language.Profile, lSize); confidence as in
confidenceValue. -/
def scoreLanguage (inputSize : Int) (lookupMap : List (String × Int))
    (language : Language) : DetectionResult :=
  let lSize : Int := (language.Profile.length : Int)
  let maxPossibleDistance := lSize * inputSize
  let dist := GetDistance lookupMap language.Profile lSize
  ⟨language.Name, confidenceValue dist maxPossibleDistance⟩

/-- Go: func (d *Detector) closestFromTable(lookupMap map[string]int) []DetectionResult.
The dereferenced language slice *d.Languages is passed explicitly.
inputSize := len(lookupMap) capped at 300; every language is scored and the
results are sorted by confidence descending. -/
def closestFromTable (languages : List Language)
    (lookupMap : List (String × Int)) : List DetectionResult :=
  let inputSize : Int :=
    if (lookupMap.length : Int) > 300 then 300 else (lookupMap.length : Int)
  sortResByConf (languages.map (scoreLanguage inputSize lookupMap))

/-- Modelled from the spec: word segmentation of the profiler (§4.1); the
profiler's source file is not among the sources at hand.  The text is
already case folded; words are maximal whitespace-free runs. -/
def splitWordsGo : List Char → List Char → List (List Char)
  | [], acc => if acc.isEmpty then [] else [acc.reverse]
  | c :: cs, acc =>
    if c.isWhitespace then
      if acc.isEmpty then splitWordsGo cs []
      else acc.reverse :: splitWordsGo cs []
    else
      splitWordsGo cs (c :: acc)

/-- Modelled from the spec: all contiguous windows of length n of a list. -/
def windowsOf (n : Nat) : List Char → List (List Char)
  | [] => []
  | c :: cs =>
    if n ≤ cs.length + 1 then (c :: cs).take n :: windowsOf n cs else []

/-- Modelled from the spec: boundary padding marker for word-edge n-grams. -/
def padChar : Char := '_'

/-- Modelled from the spec: for each n in 1..depth, the n-grams of the word
padded with n-1 boundary markers on each side (§4.1 requires some fixed
boundary-padding convention; this one is fixed here). -/
def nGramsUpTo (depth : Nat) (w : List Char) : List (List Char) :=
  (List.range depth).flatMap (fun i =>
    let n := i + 1
    windowsOf n
      (List.replicate (n - 1) padChar ++ w ++ List.replicate (n - 1) padChar))

/-- Modelled from the spec: increment the count of token t in an occurrence
map, inserting it with count 1 when absent. -/
def bumpCount : List (String × Int) → String → List (String × Int)
  | [], t => [(t, 1)]
  | (k, v) :: rest, t =>
    if k = t then (k, v + 1) :: rest else (k, v) :: bumpCount rest t

/-- Modelled from the spec: CreateOccurenceMap(text, depth) of §4.1 (the
profiler's source file is not among the sources at hand).  The text is case
folded and segmented into words; every n-gram of length 1..depth of every
word (with boundary padding) increments its count.  Empty or
whitespace-only input yields the empty map. -/
def CreateOccurenceMap (text : String) (depth : Nat) : List (String × Int) :=
  let ws := splitWordsGo (text.toList.map Char.toLower) []
  (ws.flatMap (nGramsUpTo depth)).foldl (fun m g => bumpCount m (String.mk g)) []

/-- Modelled from the spec: the rank-conversion sort order of §4.2 — count
descending with a deterministic tie break (lexicographically smaller token
first). -/
def rankLess (a b : String × Int) : Prop :=
  b.2 < a.2 ∨ (a.2 = b.2 ∧ ¬ b.1.data < a.1.data)

instance : DecidableRel rankLess := fun a b =>
  inferInstanceAs (Decidable (b.2 < a.2 ∨ (a.2 = b.2 ∧ ¬ b.1.data < a.1.data)))

/-- Modelled from the spec: CreateRankLookupMap(occ) of §4.2 (the source
file is not among the sources at hand): stable-sort tokens by count
descending with the deterministic tie break and assign dense 1-based ranks
in sorted order. -/
def CreateRankLookupMap (occ : List (String × Int)) : List (String × Int) :=
  (List.insertionSort rankLess occ).enum.map
    (fun p => (p.2.1, (p.1 : Int) + 1))

/-- Modelled from the spec: Analyze(text, name) of §4.4 (the source file is
not among the sources at hand): build a Language by profiling the text at
the fixed depth and converting to a rank map. -/
def Analyze (text name : String) : Language :=
  ⟨name, CreateRankLookupMap (CreateOccurenceMap text nDepth)⟩

/-- Go (GetClosestLanguage, first statement): if d.MinimumConfidence <= 0 or
d.MinimumConfidence > 1, it is overwritten with DefaultMinimumConfidence. -/
def validateMC (d : Detector) : Detector :=
  if d.MinimumConfidence ≤ 0 ∨ 1 < d.MinimumConfidence
  then { d with MinimumConfidence := DefaultMinimumConfidence } else d

/-- Go (GetClosestLanguage, after the nil dereference of *d.Languages):
empty collection prints the no-languages diagnostic (the Bool) and returns
"undefined"; otherwise the text is profiled, ranked and scored, and the
head result's name is returned when its confidence reaches
asPercent(MinimumConfidence). -/
def detectBody (langs : List Language) (mc : ℚ) (text : String) :
    String × Bool :=
  if langs.length = 0 then ("undefined", true)
  else if (closestFromTable langs
        (CreateRankLookupMap (CreateOccurenceMap text nDepth))).length = 0 ∨
      (closestFromTable langs
        (CreateRankLookupMap (CreateOccurenceMap text nDepth))).headI.Confidence <
        asPercent mc
    then ("undefined", false)
    else ((closestFromTable langs
      (CreateRankLookupMap (CreateOccurenceMap text nDepth))).headI.Name, false)

/-- Go: func (d *Detector) GetClosestLanguage(text string) string.
Returns (answer, warned) where warned records the
"no languages configured for this detector" diagnostic print; none models
the nil-pointer panic on *d.Languages.  The second component is the
detector after the call (the method writes MinimumConfidence when it is
out of range). -/
def GetClosestLanguage (d : Detector) (text : String) :
    Option (String × Bool) × Detector :=
  ((validateMC d).Languages.map
      (fun langs => detectBody langs (validateMC d).MinimumConfidence text),
    validateMC d)

/-- Go: func (d *Detector) GetLanguages(text string) []DetectionResult.
none models the nil-pointer panic inside closestFromTable; the detector is
returned unchanged (the method performs no writes). -/
def GetLanguages (d : Detector) (text : String) :
    Option (List DetectionResult) × Detector :=
  (d.Languages.map (fun langs => closestFromTable langs
    (CreateRankLookupMap (CreateOccurenceMap text nDepth))), d)

/-- Go: func (d *Detector) AddLanguage(languages ...Language).
A nil collection is first replaced by an empty one; the loop appends the
given languages one by one. -/
def AddLanguage (d : Detector) (languages : List Language) : Detector :=
  { d with Languages := some (languages.foldl (fun l x => l ++ [x])
      (match d.Languages with
        | none => []
        | some l => l)) }

/-- Go: func (d *Detector) AddLanguageFromText(textToAnalyze, languageName string).
A nil collection is first replaced by an empty one; the analyzed language
is appended. -/
def AddLanguageFromText (d : Detector) (textToAnalyze languageName : String) :
    Detector :=
  { d with Languages := some ((match d.Languages with
      | none => []
      | some l => l) ++ [Analyze textToAnalyze languageName]) }

/-- A rank map is dense when its ranks are exactly 1..K (K the number of
tokens), in some order — the invariant of §3 for RankMaps. -/
def IsDenseRankMap (m : List (String × Int)) : Prop :=
  (m.map Prod.snd).Perm
    ((List.range m.length).map (fun i : Nat => (i : Int) + 1))

instance : DecidablePred IsDenseRankMap := fun m =>
  inferInstanceAs (Decidable ((m.map Prod.snd).Perm
    ((List.range m.length).map (fun i : Nat => (i : Int) + 1))))

/-- Follows the spec's words (§4.3, used for the refinement statement of the
distance claim): a considered sample token contributes maxDist when absent
from the profile and min(|rB - rA|, maxDist) when present with rank rB. -/
def specContribution (mapB : List (String × Int)) (maxDist : Int)
    (kv : String × Int) : Int :=
  match mapB.lookup kv.1 with
  | none => maxDist
  | some rB => min |rB - kv.2| maxDist

/-! Helper lemmas. -/

theorem distContribution_eq_spec (mapB : List (String × Int))
    (maxDist rankA : Int) (key : String) :
    distContribution mapB maxDist rankA key =
      specContribution mapB maxDist (key, rankA) := by
  unfold distContribution specContribution
  cases h : mapB.lookup key with
  | none => rfl
  | some rB =>
    simp only
    obtain h' | h' := le_total 0 (rB - rankA)
    · rw [abs_of_nonneg h']
      simp only [min_def]
      split_ifs <;> omega
    · rw [abs_of_nonpos h']
      simp only [min_def]
      split_ifs <;> omega

theorem distContribution_nonneg (mapB : List (String × Int))
    (maxDist rankA : Int) (key : String) (hM : 0 ≤ maxDist) :
    0 ≤ distContribution mapB maxDist rankA key := by
  rw [distContribution_eq_spec]
  unfold specContribution
  cases mapB.lookup key with
  | none => exact hM
  | some rB => exact le_min (abs_nonneg _) hM

theorem distContribution_le (mapB : List (String × Int))
    (maxDist rankA : Int) (key : String) :
    distContribution mapB maxDist rankA key ≤ maxDist := by
  rw [distContribution_eq_spec]
  unfold specContribution
  cases mapB.lookup key with
  | none => exact le_refl _
  | some rB => exact min_le_right _ _

theorem getDistance_nonneg (mapA mapB : List (String × Int)) (maxDist : Int)
    (hM : 0 ≤ maxDist) : 0 ≤ GetDistance mapA mapB maxDist := by
  induction mapA with
  | nil => simp [GetDistance]
  | cons kv rest ih =>
    obtain ⟨key, rankA⟩ := kv
    unfold GetDistance
    have h1 : 0 ≤ (if rankA > 300 then 0
        else distContribution mapB maxDist rankA key) := by
      split_ifs with h
      · exact le_refl 0
      · exact distContribution_nonneg mapB maxDist rankA key hM
    omega

theorem getDistance_le_countP (mapA mapB : List (String × Int)) (maxDist : Int) :
    GetDistance mapA mapB maxDist ≤
      maxDist * (mapA.countP (fun kv => kv.2 ≤ 300) : Int) := by
  induction mapA with
  | nil => simp [GetDistance]
  | cons kv rest ih =>
    obtain ⟨key, rankA⟩ := kv
    have hcount : ((key, rankA) :: rest).countP (fun kv => kv.2 ≤ 300) =
        rest.countP (fun kv => kv.2 ≤ 300) + (if rankA ≤ 300 then 1 else 0) := by
      rw [List.countP_cons]
      by_cases hp : rankA ≤ 300 <;> simp [hp]
    rw [hcount]
    unfold GetDistance
    by_cases h : rankA > 300
    · rw [if_pos h, if_neg (by omega : ¬ rankA ≤ 300)]
      push_cast
      linarith [ih]
    · rw [if_neg h, if_pos (by omega : rankA ≤ 300)]
      have h2 := distContribution_le mapB maxDist rankA key
      push_cast
      rw [mul_add, mul_one]
      linarith [ih]

theorem countP_range_ranks (K : Nat) :
    List.countP (fun r : Int => r ≤ 300)
      ((List.range K).map (fun i : Nat => (i : Int) + 1)) = min K 300 := by
  induction K with
  | zero => rfl
  | succ n ih =>
    rw [List.range_succ, List.map_append, List.countP_append, ih]
    have hsingle : List.countP (fun r : Int => r ≤ 300)
        (List.map (fun i : Nat => (i : Int) + 1) [n]) =
        (if n + 1 ≤ 300 then 1 else 0) := by
      by_cases h : n + 1 ≤ 300
      · have h' : ((n : Int) + 1 ≤ 300) := by exact_mod_cast h
        simp [List.countP_cons, h', h]
      · have h' : ¬ ((n : Int) + 1 ≤ 300) := by
          intro hc
          exact h (by exact_mod_cast hc)
        simp [List.countP_cons, h', h]
    rw [hsingle]
    by_cases h : n + 1 ≤ 300
    · rw [if_pos h]
      omega
    · rw [if_neg h]
      omega

theorem countP_le300_of_dense (m : List (String × Int))
    (h : IsDenseRankMap m) :
    m.countP (fun kv => kv.2 ≤ 300) = min m.length 300 := by
  have h1 : m.countP (fun kv => kv.2 ≤ 300) =
      List.countP (fun r : Int => r ≤ 300) (m.map Prod.snd) := by
    rw [List.countP_map]
    rfl
  rw [h1, h.countP_eq, countP_range_ranks]

theorem confidenceValue_bounds (dist m : Int) (hm : 0 < m) (h0 : 0 ≤ dist)
    (h1 : dist ≤ m) :
    0 ≤ confidenceValue dist m ∧ confidenceValue dist m ≤ 100 := by
  unfold confidenceValue
  rw [if_neg (by omega : ¬ m = 0)]
  have hmQ : (0 : ℚ) < (m : ℚ) := by exact_mod_cast hm
  have hq0 : (0 : ℚ) ≤ (dist : ℚ) / (m : ℚ) :=
    div_nonneg (by exact_mod_cast h0) hmQ.le
  have hq1 : (dist : ℚ) / (m : ℚ) ≤ 1 := by
    rw [div_le_one hmQ]
    exact_mod_cast h1
  have hx0 : (0 : ℚ) ≤ (1 - (dist : ℚ) / (m : ℚ)) * 100 := by nlinarith
  have hx1 : (1 - (dist : ℚ) / (m : ℚ)) * 100 ≤ 100 := by nlinarith
  unfold goTruncToInt
  rw [if_neg (not_lt.mpr hx0)]
  constructor
  · exact Int.le_floor.mpr (by exact_mod_cast hx0)
  · calc ⌊(1 - (dist : ℚ) / (m : ℚ)) * 100⌋ ≤ ⌊(100 : ℚ)⌋ :=
        Int.floor_le_floor hx1
      _ = 100 := by norm_num

theorem goTruncToInt_eval (q : ℚ) (z : Int) (hz : 0 ≤ z) (h1 : (z : ℚ) ≤ q)
    (h2 : q < z + 1) : goTruncToInt q = z := by
  have h0 : (0 : ℚ) ≤ q := le_trans (by exact_mod_cast hz) h1
  unfold goTruncToInt
  rw [if_neg (not_lt.mpr h0)]
  rw [Int.floor_eq_iff]
  exact ⟨h1, h2⟩

theorem confidenceValue_eval (dist m z : Int) (hm : m ≠ 0) (hz : 0 ≤ z)
    (h1 : (z : ℚ) ≤ (1 - (dist : ℚ) / (m : ℚ)) * 100)
    (h2 : (1 - (dist : ℚ) / (m : ℚ)) * 100 < z + 1) :
    confidenceValue dist m = z := by
  unfold confidenceValue
  rw [if_neg hm]
  exact goTruncToInt_eval _ z hz h1 h2

theorem closestFromTable_perm (langs : List Language)
    (lookupMap : List (String × Int)) :
    (closestFromTable langs lookupMap).Perm
      (langs.map (scoreLanguage
        (if (lookupMap.length : Int) > 300 then 300 else (lookupMap.length : Int))
        lookupMap)) := by
  unfold closestFromTable sortResByConf
  exact List.perm_insertionSort _ _

theorem closestFromTable_length (langs : List Language)
    (lookupMap : List (String × Int)) :
    (closestFromTable langs lookupMap).length = langs.length := by
  rw [(closestFromTable_perm langs lookupMap).length_eq, List.length_map]

theorem closestFromTable_sorted (langs : List Language)
    (lookupMap : List (String × Int)) :
    List.Sorted resByConfGE (closestFromTable langs lookupMap) := by
  unfold closestFromTable sortResByConf
  exact List.sorted_insertionSort _ _

theorem mem_closestFromTable (langs : List Language)
    (lookupMap : List (String × Int)) {r : DetectionResult}
    (hr : r ∈ closestFromTable langs lookupMap) :
    ∃ L ∈ langs, r = scoreLanguage
      (if (lookupMap.length : Int) > 300 then 300 else (lookupMap.length : Int))
      lookupMap L := by
  have h := (closestFromTable_perm langs lookupMap).mem_iff.mp hr
  obtain ⟨L, hL, hLr⟩ := List.mem_map.mp h
  exact ⟨L, hL, hLr.symm⟩

theorem scoreLanguage_name (inputSize : Int) (lookupMap : List (String × Int))
    (L : Language) : (scoreLanguage inputSize lookupMap L).Name = L.Name := rfl

theorem scoreLanguage_confidence (inputSize : Int)
    (lookupMap : List (String × Int)) (L : Language) :
    (scoreLanguage inputSize lookupMap L).Confidence =
      confidenceValue (GetDistance lookupMap L.Profile (L.Profile.length : Int))
        ((L.Profile.length : Int) * inputSize) := rfl

theorem inputSize_eq_min (lookupMap : List (String × Int)) :
    (if (lookupMap.length : Int) > 300 then 300 else (lookupMap.length : Int)) =
      min (lookupMap.length : Int) 300 := by
  rw [min_def]
  split_ifs <;> omega

theorem scoreLanguage_of_empty_lookup (L : Language) :
    scoreLanguage 0 [] L = ⟨L.Name, goNaNInt⟩ := by
  unfold scoreLanguage confidenceValue
  simp [GetDistance]

theorem emptyText_rankMap :
    CreateRankLookupMap (CreateOccurenceMap "" nDepth) = [] := rfl

theorem validateMC_languages (d : Detector) :
    (validateMC d).Languages = d.Languages := by
  unfold validateMC
  split_ifs <;> rfl

theorem validateMC_of_valid (d : Detector) (h3 : 0 < d.MinimumConfidence)
    (h4 : d.MinimumConfidence ≤ 1) : validateMC d = d := by
  unfold validateMC
  rw [if_neg]
  push_neg
  exact ⟨h3, h4⟩

theorem validateMC_mc_valid (d : Detector) :
    0 < (validateMC d).MinimumConfidence ∧
      (validateMC d).MinimumConfidence ≤ 1 := by
  unfold validateMC
  split_ifs with h
  · refine ⟨by norm_num [DefaultMinimumConfidence], by norm_num [DefaultMinimumConfidence]⟩
  · push_neg at h
    exact h

theorem asPercent_nonneg (q : ℚ) (hq : 0 < q) : 0 ≤ asPercent q := by
  unfold asPercent goTruncToInt
  have h100 : (0 : ℚ) ≤ q * 100 := by nlinarith
  rw [if_neg (not_lt.mpr h100)]
  exact Int.le_floor.mpr (by exact_mod_cast h100)

theorem foldl_append_eq (l0 langs : List Language) :
    langs.foldl (fun l x => l ++ [x]) l0 = l0 ++ langs := by
  induction langs generalizing l0 with
  | nil => simp
  | cons a rest ih =>
    rw [List.foldl_cons, ih, List.append_assoc]
    rfl

/-! Claim theorems. -/

/-- C1: for every sample rank map and every profile rank map, with maxDist set
to the profile's size, GetDistance equals the sum, over exactly those sample
tokens whose sample rank is at most 300, of maxDist when the token is absent
from the profile and min(|profileRank - sampleRank|, maxDist) when present;
sample tokens with rank greater than 300 contribute nothing. -/
theorem claim1_getDistance_spec (mapA mapB : List (String × Int)) :
    GetDistance mapA mapB (mapB.length : Int) =
      ((mapA.filter (fun kv => kv.2 ≤ 300)).map
        (specContribution mapB (mapB.length : Int))).sum := by
  induction mapA with
  | nil => rfl
  | cons kv rest ih =>
    obtain ⟨key, rankA⟩ := kv
    unfold GetDistance
    rw [List.filter_cons]
    by_cases h : rankA ≤ 300
    · rw [if_neg (by omega : ¬ rankA > 300), if_pos (decide_eq_true h),
        List.map_cons, List.sum_cons, ih, distContribution_eq_spec]
    · rw [if_pos (by omega : rankA > 300),
        if_neg (by simpa using h), ih, zero_add]

/-- C2 counterexample: the claim's confidence bound fails on the unguarded
code: against a language whose profile has size 0, maxPossibleDistance is 0,
the float division yields NaN and the int conversion (amd64) yields -2^63,
which is far outside [0, 100], even for a dense nonempty sample. -/
theorem claim2_counterexample :
    IsDenseRankMap [("x", 1)] ∧
      ∃ r ∈ closestFromTable [⟨"empty", []⟩] [("x", 1)], r.Confidence < 0 := by
  decide

/-- C2 (amended): for every sample rank map with positive dense ranks the
distance computed by GetDistance with maxDist = S (the profile size) lies in
[0, S * min(|sample|, 300)] for every profile; and, provided the sample is
nonempty and every held profile is nonempty (so that maxPossibleDistance is
positive), every confidence value produced by closestFromTable lies in
[0, 100]. -/
theorem claim2_bounds (sample : List (String × Int))
    (hdense : IsDenseRankMap sample) :
    (∀ profile : List (String × Int),
      0 ≤ GetDistance sample profile (profile.length : Int) ∧
        GetDistance sample profile (profile.length : Int) ≤
          (profile.length : Int) * min (sample.length : Int) 300) ∧
    (∀ langs : List Language, sample ≠ [] → (∀ L ∈ langs, L.Profile ≠ []) →
      ∀ r ∈ closestFromTable langs sample,
        0 ≤ r.Confidence ∧ r.Confidence ≤ 100) := by
  have hcount : sample.countP (fun kv => kv.2 ≤ 300) =
      min sample.length 300 := countP_le300_of_dense sample hdense
  have hdistBound : ∀ profile : List (String × Int),
      0 ≤ GetDistance sample profile (profile.length : Int) ∧
        GetDistance sample profile (profile.length : Int) ≤
          (profile.length : Int) * min (sample.length : Int) 300 := by
    intro profile
    constructor
    · exact getDistance_nonneg sample profile _ (Int.natCast_nonneg _)
    · have h := getDistance_le_countP sample profile (profile.length : Int)
      rw [hcount] at h
      rwa [Nat.cast_min] at h
  refine ⟨hdistBound, ?_⟩
  intro langs hs hl r hr
  obtain ⟨L, hL, hrL⟩ := mem_closestFromTable langs sample hr
  rw [hrL, scoreLanguage_confidence, inputSize_eq_min]
  have hlen : 0 < sample.length := List.length_pos.mpr hs
  have hinput : (0 : Int) < min (sample.length : Int) 300 := by
    rw [lt_min_iff]
    constructor
    · exact_mod_cast hlen
    · norm_num
  have hprof : 0 < L.Profile.length := List.length_pos.mpr (hl L hL)
  have hprofI : (0 : Int) < (L.Profile.length : Int) := by exact_mod_cast hprof
  have hm : (0 : Int) < (L.Profile.length : Int) * min (sample.length : Int) 300 :=
    mul_pos hprofI hinput
  have hd := hdistBound L.Profile
  exact confidenceValue_bounds _ _ hm hd.1 hd.2

/-- C2 witness for the amended bounds theorem: a concrete dense sample. -/
theorem claim2_bounds_witness :
    IsDenseRankMap [("x", 1)] ∧
      ((∀ profile : List (String × Int),
        0 ≤ GetDistance [("x", 1)] profile (profile.length : Int) ∧
          GetDistance [("x", 1)] profile (profile.length : Int) ≤
            (profile.length : Int) * min (([("x", 1)] : List (String × Int)).length : Int) 300) ∧
      (∀ langs : List Language, ([("x", 1)] : List (String × Int)) ≠ [] →
        (∀ L ∈ langs, L.Profile ≠ []) →
        ∀ r ∈ closestFromTable langs [("x", 1)],
          0 ≤ r.Confidence ∧ r.Confidence ≤ 100)) :=
  ⟨by decide, claim2_bounds [("x", 1)] (by decide)⟩

/-- C3: the code contradicts the spec's required guard for zero-size
profiles: scoring a language with an empty profile reaches
maxPossibleDistance = 0, evaluates the float division 0.0/0.0 (NaN) instead
of never dividing by zero, and produces the implementation-dependent int
conversion goNaNInt (amd64: -2^63) rather than the required confidence 0.
The scoring loop itself completes (Go float division does not panic). -/
theorem claim3_zero_profile_bug :
    closestFromTable [⟨"empty", []⟩] [("a", 1)] = [⟨"empty", goNaNInt⟩] ∧
      goNaNInt ≠ 0 := by
  decide

/-- C4 counterexample: with MinimumConfidence 0.705 and a detection whose top
confidence is exactly 70, GetClosestLanguage returns the language name even
though 70/100 = 0.70 is below 0.705, because the code compares against the
truncated percentage asPercent(0.705) = 70.  The profile holds the ten
n-gram tokens of the sample text "a" with each rank shifted by 3, giving
distance 30 out of maxPossibleDistance 100, hence confidence 70. -/
theorem claim4_counterexample :
    (GetClosestLanguage ⟨some [⟨"en",
        [("___a", 4), ("__a", 5), ("__a_", 6), ("_a", 7), ("_a_", 8),
         ("_a__", 9), ("a", 10), ("a_", 11), ("a__", 12), ("a___", 13)]⟩],
      141 / 200⟩ "a").1 = some ("en", false) ∧
    ((closestFromTable [⟨"en",
        [("___a", 4), ("__a", 5), ("__a_", 6), ("_a", 7), ("_a_", 8),
         ("_a__", 9), ("a", 10), ("a_", 11), ("a__", 12), ("a___", 13)]⟩]
      (CreateRankLookupMap (CreateOccurenceMap "a" nDepth))).headI.Confidence : ℚ)
        / 100 < 141 / 200 := by
  have hrank : CreateRankLookupMap (CreateOccurenceMap "a" nDepth) =
      [("___a", 1), ("__a", 2), ("__a_", 3), ("_a", 4), ("_a_", 5),
       ("_a__", 6), ("a", 7), ("a_", 8), ("a__", 9), ("a___", 10)] := by
    decide
  have hdist : GetDistance
      [("___a", 1), ("__a", 2), ("__a_", 3), ("_a", 4), ("_a_", 5),
       ("_a__", 6), ("a", 7), ("a_", 8), ("a__", 9), ("a___", 10)]
      [("___a", 4), ("__a", 5), ("__a_", 6), ("_a", 7), ("_a_", 8),
       ("_a__", 9), ("a", 10), ("a_", 11), ("a__", 12), ("a___", 13)]
      10 = 30 := by decide
  have hconf : confidenceValue 30 100 = 70 := by
    refine confidenceValue_eval 30 100 70 (by norm_num) (by norm_num) ?_ ?_ <;>
      norm_num
  have hscore : closestFromTable [⟨"en",
      [("___a", 4), ("__a", 5), ("__a_", 6), ("_a", 7), ("_a_", 8),
       ("_a__", 9), ("a", 10), ("a_", 11), ("a__", 12), ("a___", 13)]⟩]
      (CreateRankLookupMap (CreateOccurenceMap "a" nDepth)) =
      [⟨"en", 70⟩] := by
    rw [hrank]
    unfold closestFromTable
    simp only [List.length_cons, List.length_nil, List.map_cons, List.map_nil]
    rw [show ((if ((10 : Nat) : Int) > 300 then (300 : Int)
      else ((10 : Nat) : Int)) = (10 : Int)) from by norm_num]
    unfold sortResByConf
    rw [show scoreLanguage 10
        [("___a", 1), ("__a", 2), ("__a_", 3), ("_a", 4), ("_a_", 5),
         ("_a__", 6), ("a", 7), ("a_", 8), ("a__", 9), ("a___", 10)]
        ⟨"en", [("___a", 4), ("__a", 5), ("__a_", 6), ("_a", 7), ("_a_", 8),
         ("_a__", 9), ("a", 10), ("a_", 11), ("a__", 12), ("a___", 13)]⟩ =
        ⟨"en", 70⟩ from by
      unfold scoreLanguage
      simp only [List.length_cons, List.length_nil]
      rw [show (((10 : Nat) : Int) * 10) = (100 : Int) from by norm_num]
      rw [show ((10 : Nat) : Int) = (10 : Int) from by norm_num] at *
      rw [hdist, hconf]]
    rfl
  have hmc : validateMC ⟨some [⟨"en",
      [("___a", 4), ("__a", 5), ("__a_", 6), ("_a", 7), ("_a_", 8),
       ("_a__", 9), ("a", 10), ("a_", 11), ("a__", 12), ("a___", 13)]⟩],
      141 / 200⟩ = ⟨some [⟨"en",
      [("___a", 4), ("__a", 5), ("__a_", 6), ("_a", 7), ("_a_", 8),
       ("_a__", 9), ("a", 10), ("a_", 11), ("a__", 12), ("a___", 13)]⟩],
      141 / 200⟩ :=
    validateMC_of_valid _ (by norm_num) (by norm_num)
  have hasP : asPercent (141 / 200 : ℚ) = 70 := by
    unfold asPercent
    refine goTruncToInt_eval _ 70 (by norm_num) ?_ ?_ <;> norm_num
  constructor
  · unfold GetClosestLanguage
    rw [hmc]
    simp only [Option.map_some']
    unfold detectBody
    rw [if_neg (by norm_num)]
    rw [hscore, hasP]
    norm_num
  · rw [hscore]
    norm_num [List.headI]

/-- C4 (amended): for every detector with a non-nil, non-empty language
collection and MinimumConfidence in (0, 1], GetClosestLanguage returns the
top result's name exactly when the top confidence is at least
asPercent(MinimumConfidence), i.e. MinimumConfidence * 100 truncated toward
zero, and "undefined" otherwise; for thresholds whose product with 100 is an
integer (such as the documented 0.7, threshold 70, so 65 is undetermined and
70 or above returns the name) this coincides with the claim's
confidence/100 >= MinimumConfidence rule, but for fractional products the
code is more permissive by up to one percentage point. -/
theorem claim4_threshold (d : Detector) (text : String) (langs : List Language)
    (h1 : d.Languages = some langs) (h2 : langs ≠ [])
    (h3 : 0 < d.MinimumConfidence) (h4 : d.MinimumConfidence ≤ 1) :
    (GetClosestLanguage d text).1 =
      some (if asPercent d.MinimumConfidence ≤
          ((closestFromTable langs (CreateRankLookupMap
            (CreateOccurenceMap text nDepth))).headI).Confidence
        then ((closestFromTable langs (CreateRankLookupMap
            (CreateOccurenceMap text nDepth))).headI).Name
        else "undefined", false) := by
  unfold GetClosestLanguage
  rw [validateMC_of_valid d h3 h4, h1]
  simp only [Option.map_some']
  unfold detectBody
  rw [if_neg (by simpa using h2)]
  have hclen : (closestFromTable langs (CreateRankLookupMap
      (CreateOccurenceMap text nDepth))).length ≠ 0 := by
    rw [closestFromTable_length]
    simpa using h2
  by_cases hc : (closestFromTable langs (CreateRankLookupMap
      (CreateOccurenceMap text nDepth))).headI.Confidence <
        asPercent d.MinimumConfidence
  · rw [if_pos (Or.inr hc), if_neg (not_le.mpr hc)]
  · rw [if_neg (by
        push_neg
        exact ⟨hclen, not_lt.mp hc⟩), if_pos (not_lt.mp hc)]

/-- C4 witness: the amended threshold rule applied to a concrete one-language
detector with the documented MinimumConfidence 0.7. -/
theorem claim4_threshold_witness :
    ([⟨"en", [("a", 1)]⟩] : List Language) ≠ [] ∧ (0 : ℚ) < 7 / 10 ∧
      (7 / 10 : ℚ) ≤ 1 ∧
      (GetClosestLanguage ⟨some [⟨"en", [("a", 1)]⟩], 7 / 10⟩ "b").1 =
        some (if asPercent ((⟨some [⟨"en", [("a", 1)]⟩], 7 / 10⟩ : Detector).MinimumConfidence) ≤
            ((closestFromTable [⟨"en", [("a", 1)]⟩] (CreateRankLookupMap
              (CreateOccurenceMap "b" nDepth))).headI).Confidence
          then ((closestFromTable [⟨"en", [("a", 1)]⟩] (CreateRankLookupMap
              (CreateOccurenceMap "b" nDepth))).headI).Name
          else "undefined", false) :=
  ⟨by decide, by norm_num, by norm_num,
    claim4_threshold _ "b" _ rfl (by decide) (by norm_num) (by norm_num)⟩

/-- C5 counterexample: the claim quantifies over every detector, but a
detector whose Languages pointer is nil (the zero value Detector in Go)
makes GetLanguages dereference nil and panic instead of returning one
result per held language; none models the panic. -/
theorem claim5_counterexample :
    (GetLanguages ⟨none, 7 / 10⟩ "").1 = none := rfl

/-- C5 (amended): for every detector whose Languages pointer is non-nil,
GetLanguages on the empty string returns, without any fault, exactly one
DetectionResult per held language, and GetClosestLanguage on the empty
string returns "undefined", with the no-languages diagnostic exactly when
the held collection is empty. -/
theorem claim5_empty_text (d : Detector) (langs : List Language)
    (h : d.Languages = some langs) :
    (∃ res, (GetLanguages d "").1 = some res ∧ res.length = langs.length) ∧
      (∃ w, (GetClosestLanguage d "").1 = some ("undefined", w) ∧
        (w = true ↔ langs = [])) := by
  constructor
  · refine ⟨closestFromTable langs (CreateRankLookupMap
      (CreateOccurenceMap "" nDepth)), ?_, closestFromTable_length _ _⟩
    unfold GetLanguages
    rw [h]
    rfl
  · unfold GetClosestLanguage
    rw [validateMC_languages, h]
    simp only [Option.map_some']
    unfold detectBody
    by_cases he : langs = []
    · rw [if_pos (by simpa using he)]
      exact ⟨true, rfl, by simpa using he⟩
    · rw [if_neg (by simpa using he)]
      refine ⟨false, ?_, by simpa using he⟩
      rw [emptyText_rankMap]
      have hne : closestFromTable langs [] ≠ [] := by
        intro hc
        apply he
        have := closestFromTable_length langs []
        rw [hc] at this
        exact List.length_eq_zero.mp this.symm
      obtain ⟨c0, rest, hcons⟩ := List.exists_cons_of_ne_nil hne
      have hc0 : c0 ∈ closestFromTable langs [] := by
        rw [hcons]
        exact List.mem_cons_self _ _
      obtain ⟨L, hL, hc0L⟩ := mem_closestFromTable langs [] hc0
      have hconf : c0.Confidence = goNaNInt := by
        rw [hc0L]
        simp only [List.length_nil, Nat.cast_zero]
        rw [show (if (0 : Int) > 300 then (300 : Int) else (0 : Int)) = 0
          from rfl]
        rw [scoreLanguage_of_empty_lookup]
      have hval := validateMC_mc_valid d
      have hth : 0 ≤ asPercent (validateMC d).MinimumConfidence :=
        asPercent_nonneg _ hval.1
      have hlt : (closestFromTable langs []).headI.Confidence <
          asPercent (validateMC d).MinimumConfidence := by
        rw [hcons]
        show c0.Confidence < _
        rw [hconf]
        calc goNaNInt < 0 := by norm_num [goNaNInt]
          _ ≤ _ := hth
      rw [if_pos (Or.inr hlt)]

/-- C5 witness: a concrete one-language detector with non-nil collection. -/
theorem claim5_empty_text_witness :
    (⟨some [⟨"en", [("a", 1)]⟩], 7 / 10⟩ : Detector).Languages =
        some [⟨"en", [("a", 1)]⟩] ∧
      ((∃ res, (GetLanguages ⟨some [⟨"en", [("a", 1)]⟩], 7 / 10⟩ "").1 =
          some res ∧ res.length = ([⟨"en", [("a", 1)]⟩] : List Language).length) ∧
        (∃ w, (GetClosestLanguage ⟨some [⟨"en", [("a", 1)]⟩], 7 / 10⟩ "").1 =
          some ("undefined", w) ∧
          (w = true ↔ ([⟨"en", [("a", 1)]⟩] : List Language) = []))) :=
  ⟨rfl, claim5_empty_text _ _ rfl⟩

/-- C6 counterexample: the claim quantifies over every detector with an
out-of-range MinimumConfidence, but on the zero-value-style detector whose
Languages pointer is nil (here with MinimumConfidence 2, which is outside
(0, 1]) GetClosestLanguage dereferences nil and panics instead of
proceeding; none models the panic. -/
theorem claim6_counterexample :
    ((2 : ℚ) ≤ 0 ∨ 1 < (2 : ℚ)) ∧
      (GetClosestLanguage ⟨none, 2⟩ "x").1 = none :=
  ⟨Or.inr (by norm_num), rfl⟩

/-- C6 (amended): for every detector with a non-nil language collection whose
MinimumConfidence lies outside (0, 1], GetClosestLanguage does not fail: the
invalid value is silently replaced by the default 0.7 and detection proceeds
exactly as it would with that default. -/
theorem claim6_invalid_mc (d : Detector) (langs : List Language) (text : String)
    (h : d.Languages = some langs)
    (hmc : d.MinimumConfidence ≤ 0 ∨ 1 < d.MinimumConfidence) :
    GetClosestLanguage d text =
        GetClosestLanguage { d with MinimumConfidence := DefaultMinimumConfidence } text ∧
      (GetClosestLanguage d text).2.MinimumConfidence = DefaultMinimumConfidence ∧
      (GetClosestLanguage d text).1.isSome = true := by
  have hv : validateMC d = { d with MinimumConfidence := DefaultMinimumConfidence } := by
    unfold validateMC
    rw [if_pos hmc]
  have hv2 : validateMC { d with MinimumConfidence := DefaultMinimumConfidence } =
      { d with MinimumConfidence := DefaultMinimumConfidence } :=
    validateMC_of_valid _ (by norm_num [DefaultMinimumConfidence])
      (by norm_num [DefaultMinimumConfidence])
  refine ⟨?_, ?_, ?_⟩
  · unfold GetClosestLanguage
    rw [hv, hv2]
  · unfold GetClosestLanguage
    rw [hv]
  · unfold GetClosestLanguage
    rw [hv]
    simp [h]

/-- C6 witness: a concrete detector with MinimumConfidence 2 and an empty
(but non-nil) language collection. -/
theorem claim6_invalid_mc_witness :
    ((2 : ℚ) ≤ 0 ∨ 1 < (2 : ℚ)) ∧
      (GetClosestLanguage ⟨some [], 2⟩ "x" =
          GetClosestLanguage ⟨some [], DefaultMinimumConfidence⟩ "x" ∧
        (GetClosestLanguage ⟨some [], 2⟩ "x").2.MinimumConfidence =
          DefaultMinimumConfidence ∧
        (GetClosestLanguage ⟨some [], 2⟩ "x").1.isSome = true) :=
  ⟨Or.inr (by norm_num),
    claim6_invalid_mc ⟨some [], 2⟩ [] "x" rfl (Or.inr (by norm_num))⟩

/-- C7: for every text, GetClosestLanguage on a detector holding an empty
(non-nil) language collection returns "undefined" and emits the
no-languages-configured diagnostic (the true flag models the printed
warning), rather than failing or returning a language name. -/
theorem claim7_empty_collection (d : Detector) (text : String)
    (h : d.Languages = some []) :
    (GetClosestLanguage d text).1 = some ("undefined", true) := by
  unfold GetClosestLanguage
  rw [validateMC_languages, h]
  rfl

/-- C7 witness: the concrete empty-collection detector. -/
theorem claim7_empty_collection_witness :
    (⟨some [], 1 / 2⟩ : Detector).Languages = some [] ∧
      (GetClosestLanguage ⟨some [], 1 / 2⟩ "hello").1 =
        some ("undefined", true) :=
  ⟨rfl, claim7_empty_collection ⟨some [], 1 / 2⟩ "hello" rfl⟩

/-- C8 counterexample: the claim quantifies over every detector, but on a
detector whose Languages pointer is nil, GetLanguages panics on the nil
dereference instead of returning a sequence; none models the panic. -/
theorem claim8_counterexample :
    (GetLanguages ⟨none, 7 / 10⟩ "x").1 = none := rfl

/-- C8 (amended): for every detector whose Languages pointer is non-nil and
every text, GetLanguages returns a sequence holding exactly one
DetectionResult per held language (same multiset of names) sorted by
confidence in descending order. -/
theorem claim8_sorted (d : Detector) (langs : List Language) (text : String)
    (h : d.Languages = some langs) :
    ∃ res, (GetLanguages d text).1 = some res ∧
      res.length = langs.length ∧
      (res.map DetectionResult.Name).Perm (langs.map Language.Name) ∧
      List.Sorted resByConfGE res := by
  refine ⟨closestFromTable langs
    (CreateRankLookupMap (CreateOccurenceMap text nDepth)), ?_, ?_, ?_, ?_⟩
  · unfold GetLanguages
    rw [h]
    rfl
  · exact closestFromTable_length _ _
  · have hp := closestFromTable_perm langs
      (CreateRankLookupMap (CreateOccurenceMap text nDepth))
    have hmap := hp.map DetectionResult.Name
    rw [List.map_map] at hmap
    have : (langs.map (DetectionResult.Name ∘ scoreLanguage
        (if ((CreateRankLookupMap (CreateOccurenceMap text nDepth)).length : Int) > 300
          then 300
          else ((CreateRankLookupMap (CreateOccurenceMap text nDepth)).length : Int))
        (CreateRankLookupMap (CreateOccurenceMap text nDepth)))) =
        langs.map Language.Name := by
      apply List.map_congr_left
      intro L _
      rfl
    rwa [this] at hmap
  · exact closestFromTable_sorted _ _

/-- C8 witness: a concrete two-language detector. -/
theorem claim8_sorted_witness :
    (⟨some [⟨"en", [("a", 1)]⟩, ⟨"fr", [("b", 1)]⟩], 7 / 10⟩ : Detector).Languages =
        some [⟨"en", [("a", 1)]⟩, ⟨"fr", [("b", 1)]⟩] ∧
      ∃ res, (GetLanguages ⟨some [⟨"en", [("a", 1)]⟩, ⟨"fr", [("b", 1)]⟩],
          7 / 10⟩ "z").1 = some res ∧
        res.length = ([⟨"en", [("a", 1)]⟩, ⟨"fr", [("b", 1)]⟩] : List Language).length ∧
        (res.map DetectionResult.Name).Perm
          (([⟨"en", [("a", 1)]⟩, ⟨"fr", [("b", 1)]⟩] : List Language).map Language.Name) ∧
        List.Sorted resByConfGE res :=
  ⟨rfl, claim8_sorted _ _ "z" rfl⟩

/-- C9: GetLanguages returns the detector unchanged, and GetClosestLanguage
leaves the language collection unchanged and writes only MinimumConfidence,
and only when the prior value was outside (0, 1] (in which case it becomes
the default 0.7). -/
theorem claim9_frame (d : Detector) (text : String) :
    (GetLanguages d text).2 = d ∧
      (GetClosestLanguage d text).2.Languages = d.Languages ∧
      (GetClosestLanguage d text).2.MinimumConfidence =
        (if d.MinimumConfidence ≤ 0 ∨ 1 < d.MinimumConfidence
          then DefaultMinimumConfidence else d.MinimumConfidence) := by
  refine ⟨rfl, ?_, ?_⟩
  · exact validateMC_languages d
  · show (validateMC d).MinimumConfidence = _
    unfold validateMC
    split_ifs <;> rfl

/-- C10: AddLanguage and AddLanguageFromText never fault, even on a detector
whose Languages pointer is nil: a nil collection is first replaced by an
empty one, and afterwards the collection holds exactly the previously held
languages, in order, followed by the newly added language(s); neither call
touches MinimumConfidence. -/
theorem claim10_add (d : Detector) (langs : List Language)
    (text name : String) :
    (AddLanguage d langs).Languages =
        some (d.Languages.getD [] ++ langs) ∧
      (AddLanguage d langs).MinimumConfidence = d.MinimumConfidence ∧
      (AddLanguageFromText d text name).Languages =
        some (d.Languages.getD [] ++ [Analyze text name]) ∧
      (AddLanguageFromText d text name).MinimumConfidence =
        d.MinimumConfidence := by
  have hmatch : (match d.Languages with
      | none => ([] : List Language)
      | some l => l) = d.Languages.getD [] := by
    cases d.Languages <;> rfl
  refine ⟨?_, rfl, ?_, rfl⟩
  · unfold AddLanguage
    rw [foldl_append_eq]
    rw [hmatch]
  · unfold AddLanguageFromText
    rw [hmatch]

end Langdet
